import Mathlib

/-!
Shallow embedding of `sqlite-writable` (src/src/index.ts and
src/src/SqliteWritableBuilder.ts): a Node `Writable` sink that stores typed
objects into a SQLite database, batching them into transactions.

Modelling conventions:
* A JavaScript value delivered as a stream chunk is a `JsValue`.
* The external collaborators (the SQLite connection, the per-type compiled
  statements, the logger) are modelled by an `Env` plus explicit outcome
  parameters for the `db.exec` calls: `beginFails` / `commitFails` say whether
  a given `db.exec("BEGIN TRANSACTION")` / `db.exec("COMMIT")` call raises.
* `Env.runError t o` is the outcome of `serializer.serialize(o)` for the
  serializer registered under type `t`: `none` means success, `some msg` means
  the call raised an error whose formatted message is `msg`.
* Each sink operation returns a `StepResult`: the mutable sink state after the
  call (JavaScript exceptions do not roll back field mutations), the messages
  the (optional) logger would receive, the SQL-level events successfully
  issued to the database, and whether an exception escaped to the stream
  callback (`err`).
* `DbEvent.run` records one successful `statement.run` execution;
  `DbEvent.commit n` records a successful COMMIT issued while
  `objectsInTransaction = n`.
-/

/-- A JavaScript runtime value, as far as the sink inspects chunks:
`typeof x != "object" || x === null` distinguishes non-objects (including
`null`), and objects are bags of named fields. -/
inductive JsValue where
  | vNull
  | vBool (b : Bool)
  | vNum (n : Int)
  | vStr (s : String)
  | vObj (fields : List (String × JsValue))

/-- `Reflect.get(obj, key)`: first binding of `key`, `none` for `undefined`. -/
def lookupField (fields : List (String × JsValue)) (key : String) : Option JsValue :=
  match fields with
  | [] => none
  | (k, v) :: rest => if k = key then some v else lookupField rest key

/-- A message sent to the injected logger (`logger?.debug` / `logger?.error`). -/
inductive LogMsg where
  | debug (msg : String)
  | error (msg : String)
deriving Repr, DecidableEq

/-- An SQL-level action successfully executed against the database. -/
inductive DbEvent where
  | tbegin
  | run
  | commit (objects : Nat)
deriving Repr, DecidableEq

/-- The external world of the sink: which types have a registered serializer
(`serializersByType` keys), and the outcome of running a registered
serializer on an object (`none` = success, `some msg` = the statement raised
and `formatError` produced `msg`). -/
structure Env where
  registeredTypes : List String
  runError : String → JsValue → Option String

/-- The sink's mutable transaction-progress fields
(`inTransaction`, `objectsInTransaction`). -/
structure SinkState where
  inTransaction : Bool
  objectsInTransaction : Nat
deriving Repr, DecidableEq

/-- Fields at `SqliteWritable` construction time. -/
def initialSinkState : SinkState := { inTransaction := false, objectsInTransaction := 0 }

/-- Result of one sink entry point (`_write` / `_writev` / `_final`). -/
structure StepResult where
  state : SinkState
  logs : List LogMsg
  events : List DbEvent
  err : Bool
deriving Repr, DecidableEq

/-- `SqliteWritable.tryToSaveToDb(foundObject)`, src/src/index.ts lines
193-221: reject non-objects, read the `type` field (any falsy or non-string
value, including the empty string, is reported as a missing discriminant),
look up the serializer, run it, count the object on success, and log-and-skip
on any serialization error. Never throws. -/
def tryToSaveToDb (env : Env) (foundObject : JsValue) (st : SinkState) :
    SinkState × List LogMsg × List DbEvent :=
  match foundObject with
  | JsValue.vObj fields =>
    match lookupField fields "type" with
    | some (JsValue.vStr objectType) =>
      if objectType = "" then
        (st, [LogMsg.error "Encountered object without the \x27type\x27 string field"], [])
      else if !(env.registeredTypes.contains objectType) then
        (st, [LogMsg.error ("Unregistered type: \x27" ++ objectType ++ "\x27")], [])
      else
        match env.runError objectType foundObject with
        | some msg => (st, [LogMsg.error msg], [])
        | none =>
          ({ st with objectsInTransaction := st.objectsInTransaction + 1 },
            [], [DbEvent.run])
    | _ => (st, [LogMsg.error "Encountered object without the \x27type\x27 string field"], [])
  | _ => (st, [LogMsg.error "Encountered non-object value"], [])

/-- Body of `SqliteWritable._writev`: `for (const { chunk } of chunks) this.tryToSaveToDb(chunk)`. -/
def processAll (env : Env) (chunks : List JsValue) (st : SinkState) :
    SinkState × List LogMsg × List DbEvent :=
  match chunks with
  | [] => (st, [], [])
  | c :: rest =>
    let r1 := tryToSaveToDb env c st
    let r2 := processAll env rest r1.1
    (r2.1, r1.2.1 ++ r2.2.1, r1.2.2 ++ r2.2.2)

/-- Tail of `SqliteWritable.runInTransaction` after the BEGIN phase:
run `dbOperations`, then, if `objectsInTransaction >= maxObjectsInTransaction`,
log and COMMIT (a raising COMMIT leaves the fields as they are and the
exception escapes). -/
def runAfterBegin (maxObjectsInTransaction : Nat) (commitFails : Bool)
    (dbOperations : SinkState → SinkState × List LogMsg × List DbEvent)
    (st : SinkState) (logs0 : List LogMsg) (evs0 : List DbEvent) : StepResult :=
  let r := dbOperations st
  if maxObjectsInTransaction ≤ r.1.objectsInTransaction then
    let logsC := [LogMsg.debug
      ("Committing transaction with " ++ toString r.1.objectsInTransaction ++ " objects...")]
    if commitFails then
      { state := r.1, logs := logs0 ++ r.2.1 ++ logsC, events := evs0 ++ r.2.2, err := true }
    else
      { state := { inTransaction := false, objectsInTransaction := 0 },
        logs := logs0 ++ r.2.1 ++ logsC,
        events := evs0 ++ r.2.2 ++ [DbEvent.commit r.1.objectsInTransaction],
        err := false }
  else
    { state := r.1, logs := logs0 ++ r.2.1, events := evs0 ++ r.2.2, err := false }

/-- `SqliteWritable.runInTransaction(dbOperations)`, src/src/index.ts lines
174-191: BEGIN first when no transaction is active (logging before the exec;
a raising BEGIN leaves `inTransaction` false and the exception escapes), then
the operations, then the threshold check. -/
def runInTransaction (maxObjectsInTransaction : Nat) (beginFails commitFails : Bool)
    (dbOperations : SinkState → SinkState × List LogMsg × List DbEvent)
    (st : SinkState) : StepResult :=
  if !st.inTransaction then
    let logsB := [LogMsg.debug "Beginning transaction..."]
    if beginFails then
      { state := st, logs := logsB, events := [], err := true }
    else
      runAfterBegin maxObjectsInTransaction commitFails dbOperations
        { st with inTransaction := true } logsB [DbEvent.tbegin]
  else
    runAfterBegin maxObjectsInTransaction commitFails dbOperations st [] []

/-- `SqliteWritable._write(chunk, _, callback)`: one record per delivery;
an exception from `runInTransaction` reaches `callback(err)`. -/
def writeStep (env : Env) (maxObjectsInTransaction : Nat) (beginFails commitFails : Bool)
    (chunk : JsValue) (st : SinkState) : StepResult :=
  runInTransaction maxObjectsInTransaction beginFails commitFails
    (tryToSaveToDb env chunk) st

/-- `SqliteWritable._writev(chunks, callback)`: one grouped (corked) delivery
of several records under a single `runInTransaction` call. -/
def writevStep (env : Env) (maxObjectsInTransaction : Nat) (beginFails commitFails : Bool)
    (chunks : List JsValue) (st : SinkState) : StepResult :=
  runInTransaction maxObjectsInTransaction beginFails commitFails
    (processAll env chunks) st

/-- `SqliteWritable._final(callback)`, src/src/index.ts lines 223-238: commit
pending objects, if any (a raising COMMIT leaves the fields as they are and
reaches `callback(err)`). -/
def finalStep (commitFails : Bool) (st : SinkState) : StepResult :=
  if st.objectsInTransaction ≠ 0 then
    let logsF := [LogMsg.debug
      ("Final commit with " ++ toString st.objectsInTransaction ++ " objects...")]
    if commitFails then
      { state := st, logs := logsF, events := [], err := true }
    else
      { state := { inTransaction := false, objectsInTransaction := 0 },
        logs := logsF, events := [DbEvent.commit st.objectsInTransaction], err := false }
  else
    { state := st, logs := [], events := [], err := false }

/-- `SqliteWritableBuilder.build(db)`, src/src/SqliteWritableBuilder.ts lines
85-108: the threshold check runs before any statement compilation; the
compilation phase and resulting sink are abstracted as `compileResult`. -/
def builderBuild (maxObjectsInTransaction : Int) (compileResult : Except String SinkState) :
    Except String SinkState :=
  if maxObjectsInTransaction ≤ 0 then
    Except.error ("Invalid max objects in transaction: " ++ toString maxObjectsInTransaction)
  else
    compileResult

/-- The classifier for records that `tryToSaveToDb` persists: a JavaScript
object whose `type` field is a non-empty string with a registered serializer
whose execution succeeds. -/
def GoodChunk (env : Env) (c : JsValue) : Bool :=
  match c with
  | JsValue.vObj fields =>
    match lookupField fields "type" with
    | some (JsValue.vStr t) =>
      !(t = "") && env.registeredTypes.contains t && (env.runError t c).isNone
    | _ => false
  | _ => false

/-- The classifier for malformed records (non-object, missing or non-string or
empty discriminant, unregistered discriminant) — the cases the spec calls
`MalformedRecordError`. -/
def MalformedChunk (env : Env) (c : JsValue) : Bool :=
  match c with
  | JsValue.vObj fields =>
    match lookupField fields "type" with
    | some (JsValue.vStr t) => t = "" || !(env.registeredTypes.contains t)
    | _ => true
  | _ => true

/-- The classifier for well-formed registered records whose statement
execution raises — the cases the spec calls `DataError`. -/
def SerializeFailsChunk (env : Env) (c : JsValue) : Bool :=
  match c with
  | JsValue.vObj fields =>
    match lookupField fields "type" with
    | some (JsValue.vStr t) =>
      !(t = "") && env.registeredTypes.contains t && (env.runError t c).isSome
    | _ => false
  | _ => false

/-- Number of BEGIN statements in an event trace. -/
def beginCount (evs : List DbEvent) : Nat :=
  match evs with
  | [] => 0
  | DbEvent.tbegin :: rest => beginCount rest + 1
  | _ :: rest => beginCount rest

/-- Object counts of the COMMIT statements in an event trace, in order. -/
def commitSizes (evs : List DbEvent) : List Nat :=
  match evs with
  | [] => []
  | DbEvent.commit n :: rest => n :: commitSizes rest
  | _ :: rest => commitSizes rest

/-- Number of error-severity messages in a log trace. -/
def errorLogCount (logs : List LogMsg) : Nat :=
  match logs with
  | [] => 0
  | LogMsg.error _ :: rest => errorLogCount rest + 1
  | _ :: rest => errorLogCount rest

theorem beginCount_append (a b : List DbEvent) :
    beginCount (a ++ b) = beginCount a + beginCount b := by
  induction a with
  | nil => simp [beginCount]
  | cons e rest ih =>
    cases e <;> simp [beginCount, ih] <;> omega

theorem commitSizes_append (a b : List DbEvent) :
    commitSizes (a ++ b) = commitSizes a ++ commitSizes b := by
  induction a with
  | nil => simp [commitSizes]
  | cons e rest ih =>
    cases e <;> simp [commitSizes, ih]

theorem beginCount_replicate_run (n : Nat) :
    beginCount (List.replicate n DbEvent.run) = 0 := by
  induction n with
  | zero => simp [beginCount]
  | succ k ih => simp [List.replicate_succ, beginCount, ih]

theorem commitSizes_replicate_run (n : Nat) :
    commitSizes (List.replicate n DbEvent.run) = [] := by
  induction n with
  | zero => simp [commitSizes]
  | succ k ih => simp [List.replicate_succ, commitSizes, ih]

/-- A good chunk is saved: the object counter is incremented, nothing is
logged, one statement execution is issued. -/
theorem tryToSaveToDb_good (env : Env) (c : JsValue) (st : SinkState)
    (h : GoodChunk env c = true) :
    tryToSaveToDb env c st =
      ({ st with objectsInTransaction := st.objectsInTransaction + 1 }, [], [DbEvent.run]) := by
  cases c with
  | vObj fields =>
    simp only [GoodChunk] at h
    cases hl : lookupField fields "type" with
    | none => rw [hl] at h; exact absurd h (by simp)
    | some v =>
      cases v with
      | vStr t =>
        rw [hl] at h
        simp only [Bool.and_eq_true, Bool.not_eq_true', decide_eq_false_iff_not] at h
        obtain ⟨⟨ht, hreg⟩, hrun⟩ := h
        simp only [tryToSaveToDb, hl, if_neg ht, hreg, Bool.not_true, Bool.false_eq_true,
          if_false, Option.isNone_iff_eq_none.mp hrun]
      | vNull => rw [hl] at h; exact absurd h (by simp)
      | vBool b => rw [hl] at h; exact absurd h (by simp)
      | vNum n => rw [hl] at h; exact absurd h (by simp)
      | vObj f2 => rw [hl] at h; exact absurd h (by simp)
  | vNull => exact absurd h (by simp [GoodChunk])
  | vBool b => exact absurd h (by simp [GoodChunk])
  | vNum n => exact absurd h (by simp [GoodChunk])
  | vStr s => exact absurd h (by simp [GoodChunk])

/-- A malformed chunk is logged once as an error and dropped: state untouched,
no statement executed. -/
theorem tryToSaveToDb_malformed (env : Env) (c : JsValue) (st : SinkState)
    (h : MalformedChunk env c = true) :
    ∃ msg, tryToSaveToDb env c st = (st, [LogMsg.error msg], []) := by
  cases c with
  | vObj fields =>
    simp only [MalformedChunk] at h
    cases hl : lookupField fields "type" with
    | none =>
      exact ⟨"Encountered object without the \x27type\x27 string field",
        by simp only [tryToSaveToDb, hl]⟩
    | some v =>
      cases v with
      | vStr t =>
        rw [hl] at h
        simp only [Bool.or_eq_true, decide_eq_true_eq, Bool.not_eq_true'] at h
        by_cases ht : t = ""
        · exact ⟨"Encountered object without the \x27type\x27 string field",
            by simp only [tryToSaveToDb, hl, if_pos ht]⟩
        · have hreg : env.registeredTypes.contains t = false := h.resolve_left ht
          exact ⟨"Unregistered type: \x27" ++ t ++ "\x27",
            by simp only [tryToSaveToDb, hl, if_neg ht, hreg, Bool.not_false, if_true]⟩
      | vNull =>
        exact ⟨"Encountered object without the \x27type\x27 string field",
          by simp only [tryToSaveToDb, hl]⟩
      | vBool b =>
        exact ⟨"Encountered object without the \x27type\x27 string field",
          by simp only [tryToSaveToDb, hl]⟩
      | vNum n =>
        exact ⟨"Encountered object without the \x27type\x27 string field",
          by simp only [tryToSaveToDb, hl]⟩
      | vObj f2 =>
        exact ⟨"Encountered object without the \x27type\x27 string field",
          by simp only [tryToSaveToDb, hl]⟩
  | vNull => exact ⟨"Encountered non-object value", by simp only [tryToSaveToDb]⟩
  | vBool b => exact ⟨"Encountered non-object value", by simp only [tryToSaveToDb]⟩
  | vNum n => exact ⟨"Encountered non-object value", by simp only [tryToSaveToDb]⟩
  | vStr s => exact ⟨"Encountered non-object value", by simp only [tryToSaveToDb]⟩

/-- A chunk whose statement execution raises is logged once as an error and
dropped: state untouched, no statement counted. -/
theorem tryToSaveToDb_serializeFails (env : Env) (c : JsValue) (st : SinkState)
    (h : SerializeFailsChunk env c = true) :
    ∃ msg, tryToSaveToDb env c st = (st, [LogMsg.error msg], []) := by
  cases c with
  | vObj fields =>
    simp only [SerializeFailsChunk] at h
    cases hl : lookupField fields "type" with
    | none => rw [hl] at h; exact absurd h (by simp)
    | some v =>
      cases v with
      | vStr t =>
        rw [hl] at h
        simp only [Bool.and_eq_true, Bool.not_eq_true', decide_eq_false_iff_not] at h
        obtain ⟨⟨ht, hreg⟩, hrun⟩ := h
        obtain ⟨msg, hmsg⟩ := Option.isSome_iff_exists.mp hrun
        exact ⟨msg, by
          simp only [tryToSaveToDb, hl, if_neg ht, hreg, Bool.not_true, Bool.false_eq_true,
            if_false, hmsg]⟩
      | vNull => rw [hl] at h; exact absurd h (by simp)
      | vBool b => rw [hl] at h; exact absurd h (by simp)
      | vNum n => rw [hl] at h; exact absurd h (by simp)
      | vObj f2 => rw [hl] at h; exact absurd h (by simp)
  | vNull => exact absurd h (by simp [SerializeFailsChunk])
  | vBool b => exact absurd h (by simp [SerializeFailsChunk])
  | vNum n => exact absurd h (by simp [SerializeFailsChunk])
  | vStr s => exact absurd h (by simp [SerializeFailsChunk])

/-- `tryToSaveToDb` never touches the `inTransaction` flag. -/
theorem tryToSaveToDb_inTransaction (env : Env) (c : JsValue) (st : SinkState) :
    (tryToSaveToDb env c st).1.inTransaction = st.inTransaction := by
  cases c with
  | vObj fields =>
    cases hl : lookupField fields "type" with
    | none => simp only [tryToSaveToDb, hl]
    | some v =>
      cases v with
      | vStr t =>
        simp only [tryToSaveToDb, hl]
        by_cases ht : t = ""
        · simp [ht]
        · simp only [if_neg ht]
          cases hreg : env.registeredTypes.contains t with
          | false => simp
          | true =>
            simp only [Bool.not_true, Bool.false_eq_true, if_false]
            cases env.runError t (JsValue.vObj fields) <;> simp
      | vNull => simp only [tryToSaveToDb, hl]
      | vBool b => simp only [tryToSaveToDb, hl]
      | vNum n => simp only [tryToSaveToDb, hl]
      | vObj f2 => simp only [tryToSaveToDb, hl]
  | vNull => simp only [tryToSaveToDb]
  | vBool b => simp only [tryToSaveToDb]
  | vNum n => simp only [tryToSaveToDb]
  | vStr s => simp only [tryToSaveToDb]

/-- `processAll` distributes over list concatenation. -/
theorem processAll_append (env : Env) (a b : List JsValue) (st : SinkState) :
    processAll env (a ++ b) st =
      ((processAll env b (processAll env a st).1).1,
       (processAll env a st).2.1 ++ (processAll env b (processAll env a st).1).2.1,
       (processAll env a st).2.2 ++ (processAll env b (processAll env a st).1).2.2) := by
  induction a generalizing st with
  | nil => simp [processAll]
  | cons c rest ih =>
    simp only [List.cons_append, processAll, List.append_eq]
    rw [ih (tryToSaveToDb env c st).1]
    simp [List.append_assoc]

/-- `processAll` never touches the `inTransaction` flag. -/
theorem processAll_inTransaction (env : Env) (chunks : List JsValue) (st : SinkState) :
    (processAll env chunks st).1.inTransaction = st.inTransaction := by
  induction chunks generalizing st with
  | nil => simp [processAll]
  | cons c rest ih =>
    simp only [processAll]
    rw [ih (tryToSaveToDb env c st).1, tryToSaveToDb_inTransaction]

/-- A list of good chunks is saved in full: one statement run per chunk, the
counter advances by the length, nothing is logged. -/
theorem processAll_good (env : Env) (chunks : List JsValue) (st : SinkState)
    (h : ∀ c ∈ chunks, GoodChunk env c = true) :
    processAll env chunks st =
      ({ st with objectsInTransaction := st.objectsInTransaction + chunks.length },
       [], List.replicate chunks.length DbEvent.run) := by
  induction chunks generalizing st with
  | nil => simp [processAll]
  | cons c rest ih =>
    have hc : GoodChunk env c = true := h c (List.mem_cons_self c rest)
    have hrest : ∀ x ∈ rest, GoodChunk env x = true :=
      fun x hx => h x (List.mem_cons_of_mem c hx)
    simp only [processAll, tryToSaveToDb_good env c st hc]
    rw [ih _ hrest]
    have hn : st.objectsInTransaction + 1 + rest.length
        = st.objectsInTransaction + (rest.length + 1) := by omega
    simp only [List.length_cons, List.replicate_succ, List.nil_append,
      List.singleton_append, hn]

/-- A list of malformed chunks is dropped in full: state untouched, no
statements executed, one error log per chunk. -/
theorem processAll_malformed (env : Env) (chunks : List JsValue) (st : SinkState)
    (h : ∀ c ∈ chunks, MalformedChunk env c = true) :
    (processAll env chunks st).1 = st ∧ (processAll env chunks st).2.2 = [] ∧
      errorLogCount (processAll env chunks st).2.1 = chunks.length := by
  induction chunks generalizing st with
  | nil => simp [processAll, errorLogCount]
  | cons c rest ih =>
    have hc : MalformedChunk env c = true := h c (List.mem_cons_self c rest)
    have hrest : ∀ x ∈ rest, MalformedChunk env x = true :=
      fun x hx => h x (List.mem_cons_of_mem c hx)
    obtain ⟨msg, hmsg⟩ := tryToSaveToDb_malformed env c st hc
    obtain ⟨ih1, ih2, ih3⟩ := ih st hrest
    simp only [processAll, hmsg]
    rw [ih1] at *
    refine ⟨ih1, by simp [ih2], ?_⟩
    simp [errorLogCount, ih3]

/-- When neither BEGIN nor COMMIT raises, no exception escapes a delivery
(`tryToSaveToDb` itself never throws). -/
theorem runInTransaction_ok_err (T : Nat)
    (ops : SinkState → SinkState × List LogMsg × List DbEvent) (st : SinkState) :
    (runInTransaction T false false ops st).err = false := by
  simp only [runInTransaction, runAfterBegin]
  split_ifs <;> simp_all

/-- A sample environment: a single registered type `"a"`; serialization raises
(with a constraint-violation message) exactly on objects carrying a `"bad"`
field. -/
def envData : Env :=
  { registeredTypes := ["a"],
    runError := fun _ o =>
      match o with
      | JsValue.vObj fields =>
        match lookupField fields "bad" with
        | some _ => some "SqliteError: UNIQUE constraint failed: bears.name"
        | none => none
      | _ => none }

/-- A sample environment whose registry maps the empty-string key. -/
def envEmptyType : Env := { registeredTypes := [""], runError := fun _ _ => none }

/-- A well-formed record of the registered type `"a"`. -/
def chunkA : JsValue := JsValue.vObj [("type", JsValue.vStr "a")]

/-- A record of type `"a"` whose statement execution raises in `envData`. -/
def chunkBad : JsValue :=
  JsValue.vObj [("type", JsValue.vStr "a"), ("bad", JsValue.vBool true)]

/-- C4: for every threshold value T ≤ 0, `SqliteWritableBuilder.build` fails
before any statement compilation with an error message citing T; for every
T > 0 the check passes and the build proceeds to the compilation phase. -/
theorem build_rejects_nonpositive_threshold (T : Int)
    (compileResult : Except String SinkState) :
    (T ≤ 0 → builderBuild T compileResult =
      Except.error ("Invalid max objects in transaction: " ++ toString T)) ∧
    (0 < T → builderBuild T compileResult = compileResult) := by
  constructor
  · intro h
    simp [builderBuild, h]
  · intro h
    simp [builderBuild, not_le.mpr h]

/-- Witness for C4 at T = -3 and T = 5. -/
theorem build_rejects_nonpositive_threshold_witness :
    ((-3 : Int) ≤ 0 ∧ builderBuild (-3) (Except.ok initialSinkState) =
      Except.error ("Invalid max objects in transaction: " ++ toString (-3 : Int))) ∧
    ((0 : Int) < 5 ∧ builderBuild 5 (Except.ok initialSinkState) =
      Except.ok initialSinkState) :=
  ⟨⟨by decide,
    (build_rejects_nonpositive_threshold (-3) (Except.ok initialSinkState)).1 (by decide)⟩,
   ⟨by decide,
    (build_rejects_nonpositive_threshold 5 (Except.ok initialSinkState)).2 (by decide)⟩⟩

/-- C9: an object whose `type` field holds the empty string is reported with
the missing-discriminant error message and skipped — for every environment,
including one whose registry maps the empty-string key, the registry is never
consulted. -/
theorem empty_string_type_treated_as_missing (env : Env)
    (fields : List (String × JsValue)) (st : SinkState)
    (h : lookupField fields "type" = some (JsValue.vStr "")) :
    tryToSaveToDb env (JsValue.vObj fields) st =
      (st, [LogMsg.error "Encountered object without the \x27type\x27 string field"], []) := by
  simp [tryToSaveToDb, h]

/-- Witness for C9: the empty-string serializer of `envEmptyType` is never
selected. -/
theorem empty_string_type_treated_as_missing_witness :
    lookupField [("type", JsValue.vStr "")] "type" = some (JsValue.vStr "") ∧
    tryToSaveToDb envEmptyType (JsValue.vObj [("type", JsValue.vStr "")]) initialSinkState =
      (initialSinkState,
       [LogMsg.error "Encountered object without the \x27type\x27 string field"], []) :=
  ⟨rfl, empty_string_type_treated_as_missing envEmptyType
    [("type", JsValue.vStr "")] initialSinkState rfl⟩

/-- C8 counterexample: a flush whose COMMIT raises leaves the pending count in
place, so the very next flush is not a no-op — it issues a COMMIT of the still
pending record. Hence "a second flush immediately after a flush is always a
no-op" fails. -/
theorem flush_idempotence_counterexample :
    (finalStep true { inTransaction := true, objectsInTransaction := 1 }).err = true ∧
    (finalStep true { inTransaction := true, objectsInTransaction := 1 }).state =
      { inTransaction := true, objectsInTransaction := 1 } ∧
    (finalStep false
      (finalStep true { inTransaction := true, objectsInTransaction := 1 }).state).events =
      [DbEvent.commit 1] := by
  refine ⟨rfl, rfl, rfl⟩

/-- C8 (amended): flush with no pending objects issues no BEGIN and no COMMIT,
logs nothing, and leaves the state unchanged; consequently a second flush
immediately after a flush that did not raise is a no-op. -/
theorem flush_nothing_pending_noop (st : SinkState) (cf cf2 : Bool) :
    (st.objectsInTransaction = 0 →
      finalStep cf st = { state := st, logs := [], events := [], err := false }) ∧
    ((finalStep cf st).err = false →
      finalStep cf2 (finalStep cf st).state =
        { state := (finalStep cf st).state, logs := [], events := [], err := false }) := by
  constructor
  · intro h
    simp [finalStep, h]
  · intro h
    by_cases h0 : st.objectsInTransaction = 0
    · simp [finalStep, h0]
    · cases cf with
      | false => simp [finalStep, h0]
      | true =>
        exfalso
        simp [finalStep, h0] at h
/-- Witness for C8 (amended): an empty flush at a pending-free state, and a
flush following a successful flush of five objects. -/
theorem flush_nothing_pending_noop_witness :
    (finalStep false { inTransaction := true, objectsInTransaction := 0 } =
      { state := { inTransaction := true, objectsInTransaction := 0 },
        logs := [], events := [], err := false }) ∧
    (finalStep false
        (finalStep false { inTransaction := true, objectsInTransaction := 5 }).state =
      { state := (finalStep false { inTransaction := true, objectsInTransaction := 5 }).state,
        logs := [], events := [], err := false }) :=
  ⟨(flush_nothing_pending_noop { inTransaction := true, objectsInTransaction := 0 }
      false false).1 rfl,
   (flush_nothing_pending_noop { inTransaction := true, objectsInTransaction := 5 }
      false false).2 rfl⟩

/-- C7: a raising COMMIT inside flush propagates to the caller and leaves the
state exactly as it was; a raising BEGIN likewise escapes the delivery with
the state unchanged and no record processed; a raising COMMIT at the end of a
delivery escapes without resetting the state. BEGIN/COMMIT errors are never
converted into error-log entries. -/
theorem begin_commit_errors_propagate (st st2 : SinkState) (env : Env) (T : Nat)
    (chunks : List JsValue)
    (h : 0 < st.objectsInTransaction) (h2 : st2.inTransaction = false) :
    finalStep true st =
      { state := st,
        logs := [LogMsg.debug
          ("Final commit with " ++ toString st.objectsInTransaction ++ " objects...")],
        events := [], err := true } ∧
    writevStep env T true false chunks st2 =
      { state := st2, logs := [LogMsg.debug "Beginning transaction..."],
        events := [], err := true } ∧
    (st.inTransaction = true → T ≤ (processAll env chunks st).1.objectsInTransaction →
      (writevStep env T false true chunks st).err = true ∧
      (writevStep env T false true chunks st).state = (processAll env chunks st).1) := by
  refine ⟨?_, ?_, ?_⟩
  · have hne : st.objectsInTransaction ≠ 0 := by omega
    simp [finalStep, hne]
  · simp [writevStep, runInTransaction, h2]
  · intro htx hthr
    simp [writevStep, runInTransaction, runAfterBegin, htx, hthr]

/-- Witness for C7: a sink holding two pending objects, and a fresh sink. -/
theorem begin_commit_errors_propagate_witness :
    (finalStep true { inTransaction := true, objectsInTransaction := 2 }).err = true ∧
    (finalStep true { inTransaction := true, objectsInTransaction := 2 }).state =
      { inTransaction := true, objectsInTransaction := 2 } ∧
    (writevStep envData 1 true false [chunkA] initialSinkState).err = true ∧
    (writevStep envData 1 false true [chunkA]
      { inTransaction := true, objectsInTransaction := 2 }).err = true := by
  have hmain := begin_commit_errors_propagate
    { inTransaction := true, objectsInTransaction := 2 } initialSinkState envData 1 [chunkA]
    (by decide) rfl
  refine ⟨?_, ?_, ?_, ?_⟩
  · rw [hmain.1]
  · rw [hmain.1]
  · rw [hmain.2.1]
  · exact (hmain.2.2 rfl (by decide)).1

/-- C5: a malformed record (non-object, absent or non-string or empty
discriminant, or unregistered discriminant) is logged with exactly one error
message and dropped: the state — in particular `objectsInTransaction` — is
untouched, no exception reaches the producer, and removing the record from a
grouped delivery changes neither the resulting state nor the statements
executed for the surrounding records. -/
theorem malformed_record_recovered_locally (env : Env) (c : JsValue)
    (h : MalformedChunk env c = true) :
    (∀ st, ∃ msg, tryToSaveToDb env c st = (st, [LogMsg.error msg], [])) ∧
    (∀ T st, (writeStep env T false false c st).err = false) ∧
    (∀ pre post st,
      (processAll env (pre ++ c :: post) st).1 = (processAll env (pre ++ post) st).1 ∧
      (processAll env (pre ++ c :: post) st).2.2 = (processAll env (pre ++ post) st).2.2) := by
  refine ⟨fun st => tryToSaveToDb_malformed env c st h,
    fun T st => runInTransaction_ok_err T _ st, fun pre post st => ?_⟩
  obtain ⟨msg, hmsg⟩ := tryToSaveToDb_malformed env c (processAll env pre st).1 h
  rw [processAll_append env pre (c :: post) st, processAll_append env pre post st]
  simp only [processAll, hmsg]
  constructor
  · trivial
  · simp

/-- Witness for C5: an integer chunk received by a fresh sink. -/
theorem malformed_record_recovered_locally_witness :
    MalformedChunk envData (JsValue.vNum 90) = true ∧
    (∃ msg, tryToSaveToDb envData (JsValue.vNum 90) initialSinkState =
      (initialSinkState, [LogMsg.error msg], [])) ∧
    (writeStep envData 1000 false false (JsValue.vNum 90) initialSinkState).err = false :=
  ⟨by decide,
   (malformed_record_recovered_locally envData (JsValue.vNum 90) (by decide)).1
     initialSinkState,
   (malformed_record_recovered_locally envData (JsValue.vNum 90) (by decide)).2.1
     1000 initialSinkState⟩

/-- C6: a record whose statement execution raises a data-level error, inside a
group whose other K−1 records are all good, is logged and dropped while the
other K−1 records are applied and counted; the delivery raises nothing. -/
theorem data_error_skips_only_that_record (env : Env) (pre post : List JsValue)
    (c : JsValue) (T : Nat) (st : SinkState)
    (hc : SerializeFailsChunk env c = true)
    (hgood : ∀ x ∈ pre ++ post, GoodChunk env x = true) :
    ∃ msg,
      (processAll env (pre ++ c :: post) st).1 =
        { st with objectsInTransaction :=
            st.objectsInTransaction + (pre.length + post.length) } ∧
      (processAll env (pre ++ c :: post) st).2.1 = [LogMsg.error msg] ∧
      (processAll env (pre ++ c :: post) st).2.2 =
        List.replicate (pre.length + post.length) DbEvent.run ∧
      (writevStep env T false false (pre ++ c :: post) st).err = false := by
  have hpre : ∀ x ∈ pre, GoodChunk env x = true :=
    fun x hx => hgood x (List.mem_append_left _ hx)
  have hpost : ∀ x ∈ post, GoodChunk env x = true :=
    fun x hx => hgood x (List.mem_append_right _ hx)
  have hA := processAll_good env pre st hpre
  obtain ⟨msg, hmsg⟩ := tryToSaveToDb_serializeFails env c
    { st with objectsInTransaction := st.objectsInTransaction + pre.length } hc
  refine ⟨msg, ?_⟩
  rw [processAll_append env pre (c :: post) st, hA]
  simp only [processAll, hmsg]
  rw [processAll_good env post _ hpost]
  refine ⟨?_, ?_, ?_, runInTransaction_ok_err T _ st⟩
  · simp only []
    have : st.objectsInTransaction + pre.length + post.length =
        st.objectsInTransaction + (pre.length + post.length) := by omega
    simp [this]
  · simp
  · simp [← List.replicate_add]

/-- Witness for C6: a failing record between two good ones, threshold 1000. -/
theorem data_error_skips_only_that_record_witness :
    SerializeFailsChunk envData chunkBad = true ∧
    (∃ msg,
      (processAll envData ([chunkA] ++ chunkBad :: [chunkA]) initialSinkState).1 =
        { inTransaction := false, objectsInTransaction := 2 } ∧
      (processAll envData ([chunkA] ++ chunkBad :: [chunkA]) initialSinkState).2.1 =
        [LogMsg.error msg] ∧
      (processAll envData ([chunkA] ++ chunkBad :: [chunkA]) initialSinkState).2.2 =
        [DbEvent.run, DbEvent.run] ∧
      (writevStep envData 1000 false false ([chunkA] ++ chunkBad :: [chunkA])
        initialSinkState).err = false) :=
  ⟨by decide,
   data_error_skips_only_that_record envData [chunkA] [chunkA] chunkBad 1000
     initialSinkState (by decide) (by decide)⟩

/-- C10: when no transaction is active, a delivery issues BEGIN as its first
database action, before any record is examined; hence a delivery of only
invalid records still opens a transaction, ends with
`{inTransaction := true, objectsInTransaction := 0}`, and the subsequent flush
issues no COMMIT — the opened transaction is never closed by the sink. -/
theorem invalid_delivery_leaves_transaction_open (env : Env) (T : Nat)
    (chunks chunks2 : List JsValue) (st : SinkState)
    (hT : 0 < T) (h1 : st.inTransaction = false) (h2 : st.objectsInTransaction = 0)
    (hbad : ∀ c ∈ chunks, MalformedChunk env c = true) :
    (writevStep env T false false chunks2 st).events.head? = some DbEvent.tbegin ∧
    (writevStep env T false false chunks st).state =
      { inTransaction := true, objectsInTransaction := 0 } ∧
    (writevStep env T false false chunks st).err = false ∧
    (∀ cf, finalStep cf (writevStep env T false false chunks st).state =
      { state := { inTransaction := true, objectsInTransaction := 0 },
        logs := [], events := [], err := false }) := by
  have hbody := processAll_malformed env chunks { st with inTransaction := true } hbad
  have hres : (writevStep env T false false chunks st).state =
      { inTransaction := true, objectsInTransaction := 0 } ∧
      (writevStep env T false false chunks st).err = false := by
    simp only [writevStep, runInTransaction, h1, Bool.not_false, if_true, if_false,
      Bool.false_eq_true, runAfterBegin]
    rw [hbody.1]
    have : ¬ T ≤ ({ st with inTransaction := true } : SinkState).objectsInTransaction := by
      simp [h2]; omega
    simp only [this, if_false]
    constructor
    · simp [h2]
    · trivial
  refine ⟨?_, hres.1, hres.2, ?_⟩
  · simp only [writevStep, runInTransaction, h1, Bool.not_false, if_true, if_false,
      Bool.false_eq_true, runAfterBegin]
    split_ifs <;> simp
  · intro cf
    rw [hres.1]
    simp [finalStep]

/-- `tryToSaveToDb` issues no COMMIT. -/
theorem tryToSaveToDb_no_commit (env : Env) (c : JsValue) (st : SinkState) (n : Nat) :
    DbEvent.commit n ∉ (tryToSaveToDb env c st).2.2 := by
  cases c with
  | vObj fields =>
    cases hl : lookupField fields "type" with
    | none => simp only [tryToSaveToDb, hl]; simp
    | some v =>
      cases v with
      | vStr t =>
        simp only [tryToSaveToDb, hl]
        by_cases ht : t = ""
        · simp [ht]
        · simp only [if_neg ht]
          cases hreg : env.registeredTypes.contains t with
          | false => simp
          | true =>
            simp only [Bool.not_true, Bool.false_eq_true, if_false]
            cases env.runError t (JsValue.vObj fields) <;> simp
      | vNull => simp only [tryToSaveToDb, hl]; simp
      | vBool b => simp only [tryToSaveToDb, hl]; simp
      | vNum m => simp only [tryToSaveToDb, hl]; simp
      | vObj f2 => simp only [tryToSaveToDb, hl]; simp
  | vNull => simp [tryToSaveToDb]
  | vBool b => simp [tryToSaveToDb]
  | vNum m => simp [tryToSaveToDb]
  | vStr s => simp [tryToSaveToDb]

/-- `processAll` issues no COMMIT. -/
theorem processAll_no_commit (env : Env) (chunks : List JsValue) (st : SinkState) (n : Nat) :
    DbEvent.commit n ∉ (processAll env chunks st).2.2 := by
  induction chunks generalizing st with
  | nil => simp [processAll]
  | cons c rest ih =>
    simp only [processAll, List.mem_append, not_or]
    exact ⟨tryToSaveToDb_no_commit env c st n, ih (tryToSaveToDb env c st).1⟩

/-- The transaction-progress invariant of the spec:
`pendingCount > 0 ⇒ active == true`. -/
def SinkInv (st : SinkState) : Prop :=
  0 < st.objectsInTransaction → st.inTransaction = true

/-- One producer-facing operation of the sink, with its delivery content and
the outcomes of the `db.exec` calls it may perform. -/
inductive SinkOp where
  | write (env : Env) (beginFails commitFails : Bool) (chunk : JsValue)
  | writev (env : Env) (beginFails commitFails : Bool) (chunks : List JsValue)
  | final (commitFails : Bool)

/-- Dispatch one operation against the sink state. -/
def applyOp (T : Nat) (st : SinkState) : SinkOp → StepResult
  | SinkOp.write env bf cf c => writeStep env T bf cf c st
  | SinkOp.writev env bf cf cs => writevStep env T bf cf cs st
  | SinkOp.final cf => finalStep cf st

/-- `runInTransaction` preserves the invariant and resets the state on every
COMMIT it issues, for any body that neither toggles the flag nor commits. -/
theorem runInTransaction_preserves_inv (T : Nat) (bf cf : Bool)
    (ops : SinkState → SinkState × List LogMsg × List DbEvent) (st : SinkState)
    (hops_tx : ∀ s, (ops s).1.inTransaction = s.inTransaction)
    (hops_ev : ∀ s n, DbEvent.commit n ∉ (ops s).2.2)
    (h : SinkInv st) :
    SinkInv (runInTransaction T bf cf ops st).state ∧
    (∀ n, DbEvent.commit n ∈ (runInTransaction T bf cf ops st).events →
      (runInTransaction T bf cf ops st).state = initialSinkState) := by
  cases htx : st.inTransaction with
  | true =>
    simp only [runInTransaction, htx, Bool.not_true, Bool.false_eq_true, if_false,
      runAfterBegin]
    by_cases hthr : T ≤ (ops st).1.objectsInTransaction
    · cases cf with
      | true =>
        simp only [hthr, if_true, if_pos]
        refine ⟨fun _ => ?_, fun n hn => ?_⟩
        · rw [hops_tx st, htx]
        · exfalso
          simp only [List.nil_append] at hn
          exact hops_ev st n hn
      | false =>
        simp only [hthr, if_true, Bool.false_eq_true, if_false]
        exact ⟨fun hpos => by simp at hpos, fun n hn => rfl⟩
    · simp only [hthr, if_false]
      refine ⟨fun _ => ?_, fun n hn => ?_⟩
      · rw [hops_tx st, htx]
      · exfalso
        simp only [List.nil_append] at hn
        exact hops_ev st n hn
  | false =>
    cases hbf : bf with
    | true =>
      simp only [runInTransaction, htx, Bool.not_false, if_true]
      exact ⟨h, fun n hn => by simp at hn⟩
    | false =>
      simp only [runInTransaction, htx, Bool.not_false, if_true, Bool.false_eq_true,
        if_false, runAfterBegin]
      by_cases hthr :
          T ≤ (ops { st with inTransaction := true }).1.objectsInTransaction
      · cases cf with
        | true =>
          simp only [hthr, if_true, if_pos]
          refine ⟨fun _ => ?_, fun n hn => ?_⟩
          · rw [hops_tx { st with inTransaction := true }]
          · exfalso
            simp only [List.mem_append, List.mem_singleton] at hn
            rcases hn with hn | hn
            · simp at hn
            · exact hops_ev _ n hn
        | false =>
          simp only [hthr, if_true, Bool.false_eq_true, if_false]
          exact ⟨fun hpos => by simp at hpos, fun n hn => rfl⟩
      · simp only [hthr, if_false]
        refine ⟨fun _ => ?_, fun n hn => ?_⟩
        · rw [hops_tx { st with inTransaction := true }]
        · exfalso
          simp only [List.mem_append, List.mem_singleton] at hn
          rcases hn with hn | hn
          · simp at hn
          · exact hops_ev _ n hn

/-- C3: starting from `{active:false, pendingCount:0}`, every sink operation
— `submit` (`_write`), `submitMany` (`_writev`), `flush` (`_final`) — on both
its normal and its exception paths preserves the invariant
`pendingCount > 0 ⇒ active == true`, and every COMMIT the sink issues resets
the state to the initial one. -/
theorem transaction_progress_invariant (T : Nat) (op : SinkOp) (st : SinkState)
    (h : SinkInv st) :
    SinkInv initialSinkState ∧
    SinkInv (applyOp T st op).state ∧
    (∀ n, DbEvent.commit n ∈ (applyOp T st op).events →
      (applyOp T st op).state = initialSinkState) := by
  refine ⟨fun hpos => by simp [initialSinkState] at hpos, ?_⟩
  cases op with
  | write env bf cf c =>
    exact runInTransaction_preserves_inv T bf cf (tryToSaveToDb env c) st
      (fun s => tryToSaveToDb_inTransaction env c s)
      (fun s n => tryToSaveToDb_no_commit env c s n) h
  | writev env bf cf cs =>
    exact runInTransaction_preserves_inv T bf cf (processAll env cs) st
      (fun s => processAll_inTransaction env cs s)
      (fun s n => processAll_no_commit env cs s n) h
  | final cf =>
    simp only [applyOp]
    by_cases h0 : st.objectsInTransaction = 0
    · have hfs : finalStep cf st = { state := st, logs := [], events := [], err := false } := by
        simp [finalStep, h0]
      rw [hfs]
      exact ⟨h, fun n hn => by simp at hn⟩
    · cases cf with
      | true =>
        simp only [finalStep, ne_eq, h0, not_false_eq_true, if_true]
        exact ⟨h, fun n hn => by simp at hn⟩
      | false =>
        simp only [finalStep, ne_eq, h0, not_false_eq_true, if_true,
          Bool.false_eq_true, if_false]
        exact ⟨fun hpos => by simp at hpos, fun n hn => rfl⟩

/-- Witness for C3: flushing a sink holding one pending object; the issued
COMMIT of 1 object resets the state to the initial one. -/
theorem transaction_progress_invariant_witness :
    SinkInv initialSinkState ∧
    SinkInv (applyOp 5 { inTransaction := true, objectsInTransaction := 1 }
      (SinkOp.final false)).state ∧
    (applyOp 5 { inTransaction := true, objectsInTransaction := 1 }
      (SinkOp.final false)).state = initialSinkState :=
  ⟨(transaction_progress_invariant 5 (SinkOp.final false)
      { inTransaction := true, objectsInTransaction := 1 } (fun _ => rfl)).1,
   (transaction_progress_invariant 5 (SinkOp.final false)
      { inTransaction := true, objectsInTransaction := 1 } (fun _ => rfl)).2.1,
   (transaction_progress_invariant 5 (SinkOp.final false)
      { inTransaction := true, objectsInTransaction := 1 } (fun _ => rfl)).2.2 1
     (by decide)⟩

/-- C1 counterexample: threshold 2, one grouped (corked) delivery of the three
valid records [A, A, A] from a fresh sink. The code commits the whole group at
the end of the delivery itself (`objectsInTransaction = 3 >= 2` holds when
`runInTransaction` reaches its threshold check), so the delivery trace ends
with a COMMIT of 3 — not zero commits — and the subsequent flush commits
nothing, contradicting "the M records are committed only by the subsequent
flush". -/
theorem grouped_delivery_counterexample :
    (writevStep envData 2 false false [chunkA, chunkA, chunkA] initialSinkState).events =
      [DbEvent.tbegin, DbEvent.run, DbEvent.run, DbEvent.run, DbEvent.commit 3] ∧
    (finalStep false
      (writevStep envData 2 false false [chunkA, chunkA, chunkA] initialSinkState).state).events
      = [] := by
  refine ⟨rfl, rfl⟩

/-- C1 (amended): for a single grouped delivery of M valid registered records
with M > threshold T and no prior pending work, the sink issues exactly one
BEGIN, performs no commit between the group's records, and commits all M
records as one COMMIT at the end of the delivery itself (M ≥ T when the
threshold is checked); the subsequent flush finds nothing pending and commits
nothing; the group is never split across transactions. -/
theorem grouped_delivery_single_oversized_commit (env : Env) (T : Nat)
    (chunks : List JsValue) (_hT : 0 < T) (hlen : T < chunks.length)
    (hgood : ∀ c ∈ chunks, GoodChunk env c = true) :
    writevStep env T false false chunks initialSinkState =
      { state := initialSinkState,
        logs := [LogMsg.debug "Beginning transaction...",
          LogMsg.debug ("Committing transaction with " ++ toString chunks.length
            ++ " objects...")],
        events := DbEvent.tbegin ::
          (List.replicate chunks.length DbEvent.run ++ [DbEvent.commit chunks.length]),
        err := false } ∧
    finalStep false (writevStep env T false false chunks initialSinkState).state =
      { state := initialSinkState, logs := [], events := [], err := false } := by
  have hbody := processAll_good env chunks
    { inTransaction := true, objectsInTransaction := 0 } hgood
  have h1 : writevStep env T false false chunks initialSinkState =
      { state := initialSinkState,
        logs := [LogMsg.debug "Beginning transaction...",
          LogMsg.debug ("Committing transaction with " ++ toString chunks.length
            ++ " objects...")],
        events := DbEvent.tbegin ::
          (List.replicate chunks.length DbEvent.run ++ [DbEvent.commit chunks.length]),
        err := false } := by
    simp only [writevStep, runInTransaction, initialSinkState, Bool.not_false, if_true,
      Bool.false_eq_true, if_false, runAfterBegin]
    rw [hbody]
    have hth : T ≤ chunks.length := by omega
    have hth0 : T ≤ 0 + chunks.length := by omega
    simp [hth, hth0, initialSinkState]
  refine ⟨h1, ?_⟩
  rw [h1]
  simp [finalStep, initialSinkState]

/-- Witness for C1 (amended) at threshold 2 with the group [A, A, A]. -/
theorem grouped_delivery_single_oversized_commit_witness :
    writevStep envData 2 false false [chunkA, chunkA, chunkA] initialSinkState =
      { state := initialSinkState,
        logs := [LogMsg.debug "Beginning transaction...",
          LogMsg.debug ("Committing transaction with " ++ toString (3 : Nat)
            ++ " objects...")],
        events := DbEvent.tbegin ::
          (List.replicate 3 DbEvent.run ++ [DbEvent.commit 3]),
        err := false } ∧
    finalStep false (writevStep envData 2 false false [chunkA, chunkA, chunkA]
        initialSinkState).state =
      { state := initialSinkState, logs := [], events := [], err := false } :=
  grouped_delivery_single_oversized_commit envData 2 [chunkA, chunkA, chunkA]
    (by decide) (by decide) (by decide)

/-- The complete event trace of one threshold-sized transaction: BEGIN, T
statement runs, COMMIT of T objects. -/
def fullSegment (T : Nat) : List DbEvent :=
  DbEvent.tbegin :: (List.replicate T DbEvent.run ++ [DbEvent.commit T])

/-- `k` consecutive threshold-sized transaction traces. -/
def repeatedSegments (T : Nat) : Nat → List DbEvent
  | 0 => []
  | k + 1 => repeatedSegments T k ++ fullSegment T

/-- The trace of a still-open transaction holding `r` uncommitted records. -/
def partialSegment (r : Nat) : List DbEvent :=
  if r = 0 then [] else DbEvent.tbegin :: List.replicate r DbEvent.run

/-- `n` consecutive `_write` deliveries of the same chunk from a fresh sink,
with the accumulated event trace. -/
def submitSeq (env : Env) (T : Nat) (c : JsValue) : Nat → SinkState × List DbEvent
  | 0 => (initialSinkState, [])
  | n + 1 =>
    let p := submitSeq env T c n
    let r := writeStep env T false false c p.1
    (r.state, p.2 ++ r.events)

/-- `n` consecutive `_write` deliveries followed by the stream-end flush
(`_final`). -/
def submitSeqFlushed (env : Env) (T : Nat) (c : JsValue) (n : Nat) :
    SinkState × List DbEvent :=
  let p := submitSeq env T c n
  let r := finalStep false p.1
  (r.state, p.2 ++ r.events)

theorem nat_succ_mod_div_lt (n T : Nat) (hT : 0 < T) (h : n % T + 1 < T) :
    (n + 1) % T = n % T + 1 ∧ (n + 1) / T = n / T := by
  have hd : T * (n / T) + n % T = n := Nat.div_add_mod n T
  have e : n + 1 = T * (n / T) + (n % T + 1) := by omega
  constructor
  · rw [e, Nat.mul_add_mod, Nat.mod_eq_of_lt h]
  · rw [e, Nat.mul_add_div hT, Nat.div_eq_of_lt h]
    omega

theorem nat_succ_mod_div_eq (n T : Nat) (hT : 0 < T) (h : n % T + 1 = T) :
    (n + 1) % T = 0 ∧ (n + 1) / T = n / T + 1 := by
  have hd : T * (n / T) + n % T = n := Nat.div_add_mod n T
  have e : n + 1 = T * (n / T + 1) := by
    rw [Nat.mul_add, Nat.mul_one]; omega
  constructor
  · rw [e]; exact Nat.mul_mod_right T _
  · rw [e]; exact Nat.mul_div_cancel_left _ hT

/-- A good single-record delivery on an idle sink, threshold above 1:
BEGIN then one run, no commit. -/
theorem writeStep_good_idle (env : Env) (c : JsValue) (T : Nat)
    (hc : GoodChunk env c = true) (h2 : 1 < T) :
    (writeStep env T false false c
        { inTransaction := false, objectsInTransaction := 0 }).state =
      { inTransaction := true, objectsInTransaction := 1 } ∧
    (writeStep env T false false c
        { inTransaction := false, objectsInTransaction := 0 }).events =
      [DbEvent.tbegin, DbEvent.run] := by
  have hnot : ¬ T ≤ 1 := by omega
  simp [writeStep, runInTransaction, runAfterBegin, tryToSaveToDb_good env c _ hc, hnot]

/-- A good single-record delivery on an idle sink, threshold 1 (or below):
BEGIN, one run, immediate commit of 1. -/
theorem writeStep_good_idle_commit (env : Env) (c : JsValue) (T : Nat)
    (hc : GoodChunk env c = true) (h1 : T ≤ 1) :
    (writeStep env T false false c
        { inTransaction := false, objectsInTransaction := 0 }).state =
      { inTransaction := false, objectsInTransaction := 0 } ∧
    (writeStep env T false false c
        { inTransaction := false, objectsInTransaction := 0 }).events =
      [DbEvent.tbegin, DbEvent.run, DbEvent.commit 1] := by
  simp [writeStep, runInTransaction, runAfterBegin, tryToSaveToDb_good env c _ hc, h1]

/-- A good single-record delivery inside an open transaction, still below the
threshold: one run, no BEGIN, no commit. -/
theorem writeStep_good_active (env : Env) (c : JsValue) (T m : Nat)
    (hc : GoodChunk env c = true) (hlt : m + 1 < T) :
    (writeStep env T false false c
        { inTransaction := true, objectsInTransaction := m }).state =
      { inTransaction := true, objectsInTransaction := m + 1 } ∧
    (writeStep env T false false c
        { inTransaction := true, objectsInTransaction := m }).events =
      [DbEvent.run] := by
  have hnot : ¬ T ≤ m + 1 := by omega
  simp [writeStep, runInTransaction, runAfterBegin, tryToSaveToDb_good env c _ hc, hnot]

/-- A good single-record delivery inside an open transaction that reaches the
threshold: one run, then a commit of the accumulated count. -/
theorem writeStep_good_active_commit (env : Env) (c : JsValue) (T m : Nat)
    (hc : GoodChunk env c = true) (hge : T ≤ m + 1) :
    (writeStep env T false false c
        { inTransaction := true, objectsInTransaction := m }).state =
      { inTransaction := false, objectsInTransaction := 0 } ∧
    (writeStep env T false false c
        { inTransaction := true, objectsInTransaction := m }).events =
      [DbEvent.run, DbEvent.commit (m + 1)] := by
  simp [writeStep, runInTransaction, runAfterBegin, tryToSaveToDb_good env c _ hc, hge]

/-- Closing an open partial transaction with one more run and its commit
yields exactly one full segment. -/
theorem partial_close_segment (m : Nat) :
    (DbEvent.tbegin :: List.replicate m DbEvent.run) ++
      [DbEvent.run, DbEvent.commit (m + 1)] = fullSegment (m + 1) := by
  simp [fullSegment, List.replicate_succ', List.append_assoc]

/-- After `n` good single-record deliveries from a fresh sink, the state holds
`n % T` pending objects (inside an open transaction exactly when that count is
non-zero) and the event trace is `n / T` full threshold-sized transactions
followed by the partial trace of the open one. -/
theorem submitSeq_characterization (env : Env) (T : Nat) (c : JsValue)
    (hT : 0 < T) (hc : GoodChunk env c = true) (n : Nat) :
    submitSeq env T c n =
      ({ inTransaction := decide (n % T ≠ 0), objectsInTransaction := n % T },
       repeatedSegments T (n / T) ++ partialSegment (n % T)) := by
  induction n with
  | zero =>
    simp [submitSeq, initialSinkState, partialSegment, repeatedSegments]
  | succ n ih =>
    simp only [submitSeq, ih]
    by_cases h0 : n % T = 0
    · rw [h0]
      by_cases hT1 : T ≤ 1
      · have hTeq : T = 1 := by omega
        subst hTeq
        obtain ⟨hs, he⟩ := writeStep_good_idle_commit env c 1 hc (by omega)
        simp [hs, he, Prod.mk.injEq, Nat.mod_one, Nat.div_one, repeatedSegments,
          partialSegment, fullSegment, List.append_assoc]
      · have h2 : 1 < T := by omega
        obtain ⟨hmod, hdiv⟩ := nat_succ_mod_div_lt n T hT (by omega)
        obtain ⟨hs, he⟩ := writeStep_good_idle env c T hc h2
        rw [h0] at hmod
        simp [hs, he, hmod, hdiv, Prod.mk.injEq, h0, partialSegment,
          List.replicate_succ]
    · have hm : decide (n % T ≠ 0) = true := by simp [h0]
      rw [hm]
      have hlt : n % T < T := Nat.mod_lt n hT
      by_cases heq : T ≤ n % T + 1
      · have heq2 : n % T + 1 = T := by omega
        obtain ⟨hmod, hdiv⟩ := nat_succ_mod_div_eq n T hT heq2
        obtain ⟨hs, he⟩ := writeStep_good_active_commit env c T (n % T) hc heq
        simp only [hs, he, hmod, hdiv, Prod.mk.injEq]
        refine ⟨by simp, ?_⟩
        rw [List.append_assoc]
        conv_lhs =>
          rw [partialSegment, if_neg h0, partial_close_segment (n % T), heq2]
        simp [repeatedSegments, partialSegment]
      · obtain ⟨hmod, hdiv⟩ := nat_succ_mod_div_lt n T hT (by omega)
        obtain ⟨hs, he⟩ := writeStep_good_active env c T (n % T) hc (by omega)
        simp only [hs, he, hmod, hdiv, Prod.mk.injEq]
        refine ⟨by simp, ?_⟩
        simp only [partialSegment, if_neg h0, if_neg (Nat.succ_ne_zero (n % T))]
        simp [List.replicate_succ', List.append_assoc]

theorem commitSizes_fullSegment (T : Nat) :
    commitSizes (fullSegment T) = [T] := by
  simp [fullSegment, commitSizes, commitSizes_append, commitSizes_replicate_run]

theorem beginCount_fullSegment (T : Nat) :
    beginCount (fullSegment T) = 1 := by
  simp [fullSegment, beginCount, beginCount_append, beginCount_replicate_run]

theorem commitSizes_repeatedSegments (T k : Nat) :
    commitSizes (repeatedSegments T k) = List.replicate k T := by
  induction k with
  | zero => rfl
  | succ k ih =>
    simp [repeatedSegments, commitSizes_append, ih, commitSizes_fullSegment,
      List.replicate_succ']

theorem beginCount_repeatedSegments (T k : Nat) :
    beginCount (repeatedSegments T k) = k := by
  induction k with
  | zero => rfl
  | succ k ih =>
    simp [repeatedSegments, beginCount_append, ih, beginCount_fullSegment]

/-- C2: N single-record deliveries of the same good chunk, threshold T, then
flush: the trace is exactly ⌊N/T⌋ full segments — each a BEGIN, T runs and a
COMMIT of exactly T objects — followed, when `N % T ≠ 0`, by one last BEGIN,
`N % T` runs, and the flush COMMIT of `N % T` objects; consequently the commit
sizes are `replicate (N / T) T` plus a final `N % T` commit exactly when T
does not divide N, and the number of BEGINs equals the number of COMMITs. -/
theorem single_record_deliveries_quantized (env : Env) (T : Nat) (c : JsValue)
    (N : Nat) (hT : 0 < T) (hc : GoodChunk env c = true) :
    (submitSeqFlushed env T c N).2 =
      repeatedSegments T (N / T) ++
        (if N % T = 0 then []
         else DbEvent.tbegin :: (List.replicate (N % T) DbEvent.run ++
           [DbEvent.commit (N % T)])) ∧
    commitSizes (submitSeqFlushed env T c N).2 =
      List.replicate (N / T) T ++ (if N % T = 0 then [] else [N % T]) ∧
    beginCount (submitSeqFlushed env T c N).2 =
      (commitSizes (submitSeqFlushed env T c N).2).length := by
  have hch := submitSeq_characterization env T c hT hc N
  have htrace : (submitSeqFlushed env T c N).2 =
      repeatedSegments T (N / T) ++
        (if N % T = 0 then []
         else DbEvent.tbegin :: (List.replicate (N % T) DbEvent.run ++
           [DbEvent.commit (N % T)])) := by
    simp only [submitSeqFlushed, hch]
    by_cases h0 : N % T = 0
    · simp [finalStep, h0, partialSegment]
    · simp [finalStep, h0, partialSegment, List.append_assoc]
  refine ⟨htrace, ?_, ?_⟩
  · rw [htrace]
    by_cases h0 : N % T = 0
    · simp [h0, commitSizes_append, commitSizes_repeatedSegments, commitSizes]
    · simp [h0, commitSizes_append, commitSizes_repeatedSegments, commitSizes,
        commitSizes_replicate_run]
  · rw [htrace]
    by_cases h0 : N % T = 0
    · simp [h0, beginCount_append, beginCount_repeatedSegments, beginCount,
        commitSizes_append, commitSizes_repeatedSegments, commitSizes]
    · simp [h0, beginCount_append, beginCount_repeatedSegments, beginCount,
        beginCount_replicate_run, commitSizes_append, commitSizes_repeatedSegments,
        commitSizes, commitSizes_replicate_run]

/-- Witness for C2: threshold 2, three single-record deliveries of a good
chunk, then flush — two BEGINs, one intermediate commit of 2, one flush commit
of 1. -/
theorem single_record_deliveries_quantized_witness :
    (0 : Nat) < 2 ∧ GoodChunk envData chunkA = true ∧
    ((submitSeqFlushed envData 2 chunkA 3).2 =
      repeatedSegments 2 (3 / 2) ++
        (if 3 % 2 = 0 then []
         else DbEvent.tbegin :: (List.replicate (3 % 2) DbEvent.run ++
           [DbEvent.commit (3 % 2)])) ∧
    commitSizes (submitSeqFlushed envData 2 chunkA 3).2 =
      List.replicate (3 / 2) 2 ++ (if 3 % 2 = 0 then [] else [3 % 2]) ∧
    beginCount (submitSeqFlushed envData 2 chunkA 3).2 =
      (commitSizes (submitSeqFlushed envData 2 chunkA 3).2).length) :=
  ⟨by decide, by decide,
   single_record_deliveries_quantized envData 2 chunkA 3 (by decide) (by decide)⟩

/-- Witness for C10: a delivery containing only the invalid record `90` at
threshold 1000 from a fresh sink. -/
theorem invalid_delivery_leaves_transaction_open_witness :
    (writevStep envData 1000 false false [JsValue.vNum 90]
      initialSinkState).events.head? = some DbEvent.tbegin ∧
    (writevStep envData 1000 false false [JsValue.vNum 90] initialSinkState).state =
      { inTransaction := true, objectsInTransaction := 0 } ∧
    (writevStep envData 1000 false false [JsValue.vNum 90] initialSinkState).err =
      false ∧
    finalStep false (writevStep envData 1000 false false [JsValue.vNum 90]
        initialSinkState).state =
      { state := { inTransaction := true, objectsInTransaction := 0 },
        logs := [], events := [], err := false } :=
  ⟨(invalid_delivery_leaves_transaction_open envData 1000 [JsValue.vNum 90]
      [JsValue.vNum 90] initialSinkState (by decide) rfl rfl (by decide)).1,
   (invalid_delivery_leaves_transaction_open envData 1000 [JsValue.vNum 90]
      [JsValue.vNum 90] initialSinkState (by decide) rfl rfl (by decide)).2.1,
   (invalid_delivery_leaves_transaction_open envData 1000 [JsValue.vNum 90]
      [JsValue.vNum 90] initialSinkState (by decide) rfl rfl (by decide)).2.2.1,
   (invalid_delivery_leaves_transaction_open envData 1000 [JsValue.vNum 90]
      [JsValue.vNum 90] initialSinkState (by decide) rfl rfl (by decide)).2.2.2 false⟩
